import Mathlib

/-!
Shallow embedding of the formula parser and the stoichiometric calculation
of src/main.py (functions parse_formula and the Calculate branch of main).
Numeric literals and Python floats are modelled as exact rationals; Python
dicts (ordered, insertion-preserving) are modelled as association lists.
-/

/-- One lexical unit produced by re.findall of the pattern
"([A-Z][a-z]?|d*.?d+|open-bracket|close-bracket)" over the formula string
(main.py line 53).  A numeric token carries its float value as a rational. -/
inductive Token where
  | sym (s : String)
  | num (q : ℚ)
  | lparen
  | rparen
  deriving DecidableEq

/-- The only failure the parser can produce: a Python IndexError raised by
stack.pop on, or indexing into, an empty list (main.py lines 69, 71, 81, 84). -/
inductive PErr where
  | indexError
  deriving DecidableEq

/-- A GroupD: one bracket-nesting level of accumulated coefficients, a Python
dict from element symbol to float, in insertion order. -/
abbrev GroupD := List (String × ℚ)

/-- Value of a list of decimal digit characters. -/
def digitsVal (ds : List Char) : ℕ :=
  ds.foldl (fun n c => 10 * n + (c.toNat - 48)) 0

/-- Value of float(intPart ++ "." ++ fracPart), as an exact rational. -/
def numVal (ip fp : List Char) : ℚ :=
  (digitsVal ip : ℚ) + (digitsVal fp : ℚ) / ((10 : ℚ) ^ fp.length)

/-- Left-to-right scan of re.findall over the characters (main.py line 53).
At each position the alternatives are tried in order: an uppercase letter with
an optional following lowercase letter; a decimal literal (digits, or
digits-dot-digits, or dot-digits, greedy); a single bracket.  A character
matching nothing is skipped.  The fuel argument is the number of characters
left and only guards recursion. -/
def tokenizeAux : ℕ → List Char → List Token
  | 0, _ => []
  | _ + 1, [] => []
  | f + 1, c :: cs =>
    if c.isUpper then
      match cs with
      | c2 :: rest =>
        if c2.isLower then Token.sym (String.mk [c, c2]) :: tokenizeAux f rest
        else Token.sym (String.mk [c]) :: tokenizeAux f cs
      | [] => [Token.sym (String.mk [c])]
    else if c = '(' then Token.lparen :: tokenizeAux f cs
    else if c = ')' then Token.rparen :: tokenizeAux f cs
    else if c.isDigit ∨ c = '.' then
      let ip := (c :: cs).takeWhile Char.isDigit
      let r1 := (c :: cs).dropWhile Char.isDigit
      match r1 with
      | '.' :: r2 =>
        let fp := r2.takeWhile Char.isDigit
        if fp = [] then
          if ip = [] then tokenizeAux f cs
          else Token.num (numVal ip []) :: tokenizeAux f r1
        else Token.num (numVal ip fp) :: tokenizeAux f (r2.dropWhile Char.isDigit)
      | _ =>
        if ip = [] then tokenizeAux f cs
        else Token.num (numVal ip []) :: tokenizeAux f r1
    else tokenizeAux f cs

/-- Token stream of a formula string. -/
def tokenize (s : String) : List Token :=
  tokenizeAux s.data.length s.data

/-- The dict update of main.py line 81 and line 71:
stack-top entry for e becomes get-with-default-zero plus c.  A Python dict
keeps an updated key at its old position and appends a fresh key. -/
def addTo : GroupD → String → ℚ → GroupD
  | [], e, c => [(e, c)]
  | (k, v) :: rest, e, c =>
    if k = e then (k, v + c) :: rest else (k, v) :: addTo rest e c

/-- The close-bracket merge loop of main.py lines 70-71: every (elem, cnt)
of the popped group is added into the parent scaled by the multiplier. -/
def mergeScaled (parent child : GroupD) (m : ℚ) : GroupD :=
  child.foldl (fun acc p => addTo acc p.1 (p.2 * m)) parent

/-- stack.pop followed by the merge loop (main.py lines 69-71).  An empty
stack fails at the pop; a singleton stack pops its only group and then fails
at the first indexing of the now-empty stack, which only happens when the
popped group is non-empty. -/
def popMerge (m : ℚ) : List GroupD → Except PErr (List GroupD)
  | [] => Except.error PErr.indexError
  | [g] => if g = [] then Except.ok [] else Except.error PErr.indexError
  | g :: top :: s2 => Except.ok (mergeScaled top g m :: s2)

/-- The while loop of main.py lines 56-82 plus the return of line 84, over the
remaining token list, with the stack held head-first (Python stack[-1] is the
head, stack[0] the last element).  After a close-bracket the following token
is always consumed (i is incremented at line 64 and again at line 82); it
supplies the multiplier only when numeric.  An element symbol consumes a
following numeric token as its count, else the count is one.  A bare numeric
token matches no branch and is skipped.  At end of input the result is
stack[0], an IndexError when the stack is empty. -/
def parseSteps : List Token → List GroupD → Except PErr GroupD
  | [], stack =>
    match stack.getLast? with
    | some root => Except.ok root
    | none => Except.error PErr.indexError
  | Token.lparen :: rest, stack => parseSteps rest ([] :: stack)
  | Token.rparen :: Token.num q :: r2, stack =>
    match popMerge q stack with
    | Except.ok st => parseSteps r2 st
    | Except.error e => Except.error e
  | Token.rparen :: _ :: r2, stack =>
    match popMerge 1 stack with
    | Except.ok st => parseSteps r2 st
    | Except.error e => Except.error e
  | [Token.rparen], stack =>
    match popMerge 1 stack with
    | Except.ok st =>
      match st.getLast? with
      | some root => Except.ok root
      | none => Except.error PErr.indexError
    | Except.error e => Except.error e
  | Token.sym e :: Token.num q :: r2, stack =>
    match stack with
    | [] => Except.error PErr.indexError
    | top :: s2 => parseSteps r2 (addTo top e q :: s2)
  | Token.sym e :: rest, stack =>
    match stack with
    | [] => Except.error PErr.indexError
    | top :: s2 => parseSteps rest (addTo top e 1 :: s2)
  | Token.num _ :: rest, stack => parseSteps rest stack

/-- main.py lines 39-84: tokenize, run the loop from a stack holding one
empty root group, return stack[0]. -/
def parse_formula (s : String) : Except PErr GroupD :=
  parseSteps (tokenize s) [([] : GroupD)]

/-- One row of the calculation result table: a required mass (the value the
code formats with five decimals) or the unavailable marker of line 156. -/
inductive WEntry where
  | val (q : ℚ)
  | unavailable
  deriving DecidableEq

/-- Failure modes of the Calculate branch of main (lines 137-156): the
non-positive-mass rejection of line 138, the missing reference weight of
line 142, a Python KeyError from composition-indexing at line 145, and a
Python ZeroDivisionError from line 146. -/
inductive CalcError where
  | invalidMass
  | missingWeight (elem : String)
  | keyError (elem : String)
  | divByZero
  deriving DecidableEq

/-- Python dict indexing composition-bracket-e (raising KeyError when the key
is absent), as an Option. -/
def findQ : GroupD → String → Option ℚ
  | [], _ => none
  | (k, v) :: rest, e => if k = e then some v else findQ rest e

/-- Python dict get with default zero. -/
def lookupD : GroupD → String → ℚ
  | [], _ => 0
  | (k, v) :: rest, e => if k = e then v else lookupD rest e

/-- Sum of every coefficient recorded for key e in a group. -/
def sumKey : GroupD → String → ℚ
  | [], _ => 0
  | (k, v) :: rest, e => (if k = e then v else 0) + sumKey rest e

/-- Floor of a rational (the denominator is positive, so Euclidean division
of numerator by denominator is flooring division). -/
def qfloor (q : ℚ) : ℤ := Int.ediv q.num (q.den : ℤ)

/-- Round a rational to the nearest integer, ties to even, the rule Python
float formatting applies to the digit string. -/
def roundHalfEven (q : ℚ) : ℤ :=
  let n := qfloor q
  let f := q - (n : ℚ)
  if f < 1 / 2 then n
  else if 1 / 2 < f then n + 1
  else if n % 2 = 0 then n else n + 1

/-- The five-decimal rounding performed by the format specifier of
main.py line 154. -/
def roundTo5 (q : ℚ) : ℚ := ((roundHalfEven (q * 100000) : ℤ) : ℚ) / 100000

/-- main.py line 153: required = atomic_weight * coeff * factor. -/
def rawRequired (aw c factor : ℚ) : ℚ := aw * c * factor

/-- One iteration of the result loop of main.py lines 150-156 for the pair
(element, coefficient): a weight that is None or 0.0 is falsy and yields the
unavailable marker, otherwise the rounded required mass. -/
def entryFor (lookup : String → Option ℚ) (factor : ℚ) (p : String × ℚ) :
    String × WEntry :=
  (p.1,
    match lookup p.1 with
    | some aw =>
      if aw = 0 then WEntry.unavailable
      else WEntry.val (roundTo5 (rawRequired aw p.2 factor))
    | none => WEntry.unavailable)

/-- The Calculate branch of main.py lines 137-156 as a function of the parsed
composition, the selected reference element, the entered mass and the
atomic-weight lookup: reject a non-positive mass; resolve the reference
weight, aborting when it is None; index the composition at the reference
element; divide by base weight times reference coefficient (a
ZeroDivisionError when that product is zero); then build the result rows. -/
def calculate (comp : GroupD) (ref : String) (mass : ℚ)
    (lookup : String → Option ℚ) : Except CalcError (List (String × WEntry)) :=
  if mass ≤ 0 then Except.error CalcError.invalidMass
  else
    match lookup ref with
    | none => Except.error (CalcError.missingWeight ref)
    | some w =>
      match findQ comp ref with
      | none => Except.error (CalcError.keyError ref)
      | some cr =>
        if w * cr = 0 then Except.error CalcError.divByZero
        else Except.ok (comp.map (entryFor lookup (mass / (w * cr))))

instance {ε α : Type} [DecidableEq ε] [DecidableEq α] :
    DecidableEq (Except ε α) := fun a b =>
  match a, b with
  | Except.ok x, Except.ok y =>
    if h : x = y then isTrue (by rw [h])
    else isFalse (fun hh => h (Except.ok.inj hh))
  | Except.error x, Except.error y =>
    if h : x = y then isTrue (by rw [h])
    else isFalse (fun hh => h (Except.error.inj hh))
  | Except.ok _, Except.error _ => isFalse (fun hh => Except.noConfusion hh)
  | Except.error _, Except.ok _ => isFalse (fun hh => Except.noConfusion hh)

/-! ### Helper lemmas about the accumulation primitives -/

theorem findQ_mem {e : String} {v : ℚ} :
    ∀ {g : GroupD}, findQ g e = some v → (e, v) ∈ g := by
  intro g
  induction g with
  | nil => intro h; simp [findQ] at h
  | cons p rest ih =>
    obtain ⟨k, w⟩ := p
    intro h
    by_cases hk : k = e
    · subst hk
      simp [findQ] at h
      rw [← h]
      exact List.mem_cons_self _ _
    · simp [findQ, hk] at h
      exact List.mem_cons_of_mem _ (ih h)

theorem lookupD_addTo_self (g : GroupD) (e : String) (c : ℚ) :
    lookupD (addTo g e c) e = lookupD g e + c := by
  induction g with
  | nil => simp [addTo, lookupD]
  | cons p rest ih =>
    obtain ⟨k, v⟩ := p
    by_cases hk : k = e
    · subst hk
      simp [addTo, lookupD]
    · simp [addTo, lookupD, hk, ih]

theorem lookupD_addTo_other (g : GroupD) (e x : String) (c : ℚ) (h : x ≠ e) :
    lookupD (addTo g e c) x = lookupD g x := by
  induction g with
  | nil => simp [addTo, lookupD, Ne.symm h]
  | cons p rest ih =>
    obtain ⟨k, v⟩ := p
    by_cases hk : k = e
    · subst hk
      simp [addTo, lookupD, Ne.symm h]
    · by_cases hx : k = x
      · simp [addTo, lookupD, hk, hx, h]
      · simp [addTo, lookupD, hk, hx, ih]

theorem lookupD_addTo (g : GroupD) (e x : String) (c : ℚ) :
    lookupD (addTo g e c) x = lookupD g x + if e = x then c else 0 := by
  by_cases hx : e = x
  · subst hx; rw [lookupD_addTo_self]; simp
  · rw [lookupD_addTo_other g e x c (Ne.symm hx)]; simp [hx]

theorem lookupD_mergeScaled (child : GroupD) :
    ∀ (parent : GroupD) (m : ℚ) (e : String),
      lookupD (mergeScaled parent child m) e =
        lookupD parent e + m * sumKey child e := by
  induction child with
  | nil => intro parent m e; simp [mergeScaled, sumKey]
  | cons p rest ih =>
    intro parent m e
    obtain ⟨k, v⟩ := p
    have hstep : mergeScaled parent ((k, v) :: rest) m =
        mergeScaled (addTo parent k (v * m)) rest m := by
      simp [mergeScaled]
    rw [hstep, ih, lookupD_addTo]
    simp only [sumKey]
    by_cases hk : k = e
    · subst hk; simp; ring
    · simp [hk]

/-! ### Helper lemmas about the calculation -/

theorem calculate_ok (comp : GroupD) (ref : String) (mass : ℚ)
    (lookup : String → Option ℚ) (w cr : ℚ)
    (hm : 0 < mass) (hw : lookup ref = some w) (hc : findQ comp ref = some cr)
    (hnz : w * cr ≠ 0) :
    calculate comp ref mass lookup =
      Except.ok (comp.map (entryFor lookup (mass / (w * cr)))) := by
  simp [calculate, not_le.mpr hm, hw, hc, hnz]

theorem entryFor_some (lookup : String → Option ℚ) (f : ℚ) (e : String)
    (c aw : ℚ) (h : lookup e = some aw) (h0 : aw ≠ 0) :
    entryFor lookup f (e, c) =
      (e, WEntry.val (roundTo5 (rawRequired aw c f))) := by
  simp [entryFor, h, h0]

theorem entryFor_none (lookup : String → Option ℚ) (f : ℚ) (e : String)
    (c : ℚ) (h : lookup e = none) :
    entryFor lookup f (e, c) = (e, WEntry.unavailable) := by
  simp [entryFor, h]

/-! ### Claims -/

/-- Claim C1, counterexample.  The claim states that parse fails with a
MalformedFormula error when the string contains no recognizable tokens and
when an open-bracket is never closed, returning no partial Composition.  In
the code neither input fails: a token-free string parses to the empty
composition and an unclosed open-bracket returns just the root group, a
partial composition. -/
theorem C1_counterexample :
    parse_formula "xyz" = Except.ok [] ∧
    parse_formula "Fe(OH" = Except.ok [("Fe", 1)] := by
  constructor <;> decide

/-- Claim C1, amended.  parse never raises a dedicated MalformedFormula
error.  A string with no recognizable tokens parses to the empty
composition; an unmatched close-bracket that is actually processed raises a
stack-underflow IndexError (the example of the spec, with no partial
result); a close-bracket immediately following another close-bracket is
consumed as that bracket's would-be multiplier and is silently skipped; an
open-bracket that is never closed silently returns only the root group. -/
theorem C1_behavior :
    (∀ s : String, tokenize s = [] → parse_formula s = Except.ok []) ∧
    parse_formula "Fe)O2" = Except.error PErr.indexError ∧
    parse_formula "Fe(OH" = Except.ok [("Fe", 1)] ∧
    parse_formula "())" = Except.ok [] := by
  refine ⟨?_, by decide, by decide, by decide⟩
  intro s h
  unfold parse_formula
  rw [h]
  rfl

/-- Claim C1, witness for the amended theorem at the token-free input. -/
theorem C1_behavior_witness :
    tokenize "xyz" = [] ∧ parse_formula "xyz" = Except.ok [] :=
  ⟨by decide, C1_behavior.1 "xyz" (by decide)⟩

/-- Claim C2, evaluation at the failing input.  The claim states that a
non-numeric token following a close-bracket is not consumed and is processed
normally.  In the code, after a close-bracket the index is advanced
unconditionally (line 64) and again at the end of the loop body (line 82),
so the following token is always skipped: parsing the formula with an
element symbol right after a close-bracket drops that element, and a
formula with an open-bracket right after a close-bracket loses the new
group and underflows the stack at the end. -/
theorem C2_skipped_token :
    parse_formula "(H)O" = Except.ok [("H", 1)] ∧
    parse_formula "(H)(O)" = Except.error PErr.indexError := by
  constructor <;> with_unfolding_all rfl

/-- Claim C3, confirmed: the five example formulas of the spec parse to
exactly the stated compositions. -/
theorem C3_examples :
    parse_formula "H2O" = Except.ok [("H", 2), ("O", 1)] ∧
    parse_formula "Fe0.5O1.5" = Except.ok [("Fe", 1 / 2), ("O", 3 / 2)] ∧
    parse_formula "Fe(OH)2" = Except.ok [("Fe", 1), ("O", 2), ("H", 2)] ∧
    parse_formula "Al2(SO4)3" = Except.ok [("Al", 2), ("S", 3), ("O", 12)] ∧
    parse_formula "NaCl" = Except.ok [("Na", 1), ("Cl", 1)] := by
  refine ⟨by with_unfolding_all rfl, by with_unfolding_all rfl,
    by with_unfolding_all rfl, by with_unfolding_all rfl,
    by with_unfolding_all rfl⟩

/-- Claim C4, confirmed: coefficients accumulate by summation and are never
overwritten.  Adding a count for an element to a group yields the old
coefficient plus the count and leaves every other element unchanged;
merging a closed sub-group into its parent with a multiplier adds, for each
element, the multiplier times the sub-group's total for that element; and a
whole parse of a formula whose element repeats at top level and inside two
bracket groups sums every scaled contribution. -/
theorem C4_accumulate :
    (∀ (g : GroupD) (e : String) (c : ℚ),
       lookupD (addTo g e c) e = lookupD g e + c) ∧
    (∀ (g : GroupD) (e x : String) (c : ℚ), x ≠ e →
       lookupD (addTo g e c) x = lookupD g x) ∧
    (∀ (parent child : GroupD) (m : ℚ) (e : String),
       lookupD (mergeScaled parent child m) e =
         lookupD parent e + m * sumKey child e) ∧
    parse_formula "H2H3" = Except.ok [("H", 5)] ∧
    parse_formula "H2(H)3(H2)0.5" = Except.ok [("H", 6)] := by
  refine ⟨lookupD_addTo_self, lookupD_addTo_other,
    fun parent child m e => lookupD_mergeScaled child parent m e,
    by with_unfolding_all rfl, by with_unfolding_all rfl⟩

/-- Claim C4, witness: the no-overwrite part applied at a concrete group. -/
theorem C4_accumulate_witness :
    ("O" : String) ≠ "H" ∧
    lookupD (addTo [("O", 3)] "H" 2) "O" = lookupD [("O", 3)] "O" :=
  ⟨by decide, C4_accumulate.2.1 [("O", 3)] "H" "O" 2 (by decide)⟩

/-- Claim C5, counterexample.  The claim quantifies over every composition
whose reference element is present with a known atomic weight and every
positive reference mass, but for the composition with reference coefficient
zero (which the parser itself produces for the formula with an explicit
zero count) the code divides by base weight times zero and fails with a
ZeroDivisionError instead of computing any required masses. -/
theorem C5_counterexample :
    parse_formula "H0" = Except.ok [("H", 0)] ∧
    calculate [("H", 0)] "H" 1 (fun x => if x = "H" then some 1 else none) =
      Except.error CalcError.divByZero := by
  constructor <;> with_unfolding_all rfl

/-- Claim C5, amended: additionally assuming the reference element's
coefficient is nonzero, the calculation succeeds and every element of the
composition whose atomic weight resolves to a positive value receives the
required mass weight times coefficient times scale factor, where the scale
factor is the reference mass divided by base weight times reference
coefficient, rounded to five decimals in the returned result. -/
theorem C5_scaled_masses (comp : GroupD) (ref : String) (mass : ℚ)
    (lookup : String → Option ℚ) (w cr : ℚ) (e : String) (c aw : ℚ)
    (hm : 0 < mass) (hw : lookup ref = some w) (hw0 : 0 < w)
    (hc : findQ comp ref = some cr) (hc0 : cr ≠ 0)
    (he : (e, c) ∈ comp) (hae : lookup e = some aw) (ha0 : 0 < aw) :
    calculate comp ref mass lookup =
      Except.ok (comp.map (entryFor lookup (mass / (w * cr)))) ∧
    (e, WEntry.val (roundTo5 (rawRequired aw c (mass / (w * cr))))) ∈
      comp.map (entryFor lookup (mass / (w * cr))) := by
  have hnz : w * cr ≠ 0 := mul_ne_zero (ne_of_gt hw0) hc0
  refine ⟨calculate_ok comp ref mass lookup w cr hm hw hc hnz, ?_⟩
  have hmem := List.mem_map_of_mem (entryFor lookup (mass / (w * cr))) he
  rwa [entryFor_some lookup (mass / (w * cr)) e c aw hae (ne_of_gt ha0)] at hmem

/-- Claim C5, witness: the amended theorem at a concrete composition,
lookup and mass. -/
theorem C5_scaled_masses_witness :
    (0 : ℚ) < 3 ∧
    ("H", WEntry.val (roundTo5 (rawRequired 1 2 (3 / (16 * 1))))) ∈
      ([("H", 2), ("O", 1)] : GroupD).map
        (entryFor (fun x => if x = "O" then some 16 else if x = "H" then some 1 else none)
          (3 / (16 * 1))) :=
  ⟨by norm_num,
   (C5_scaled_masses [("H", 2), ("O", 1)] "O" 3
      (fun x => if x = "O" then some 16 else if x = "H" then some 1 else none)
      16 1 "H" 2 1 (by norm_num) rfl (by norm_num) rfl (by norm_num)
      (List.mem_cons_self _ _) rfl (by norm_num)).2⟩

/-- Claim C6, counterexample.  With the atomic weight of the second element
equal to one millionth, its returned mass is rounded to zero at reference
mass one but to one hundred-thousandth at reference mass ten, so the
results at mass ten are not ten times the results at mass one. -/
theorem C6_counterexample :
    calculate [("A", 1), ("B", 1)] "A" 10
        (fun x => if x = "A" then some 1
                  else if x = "B" then some (1 / 1000000) else none) =
      Except.ok [("A", WEntry.val 10), ("B", WEntry.val (1 / 100000))] ∧
    calculate [("A", 1), ("B", 1)] "A" 1
        (fun x => if x = "A" then some 1
                  else if x = "B" then some (1 / 1000000) else none) =
      Except.ok [("A", WEntry.val 1), ("B", WEntry.val 0)] ∧
    (1 / 100000 : ℚ) ≠ 10 * 0 := by
  refine ⟨by with_unfolding_all rfl, by with_unfolding_all rfl, by norm_num⟩

/-- Claim C6, amended: the scale invariant holds exactly for the
pre-rounding required masses.  For any positive factor k both calculations
succeed, the raw required mass of each resolvable element at reference mass
k is exactly k times its raw required mass at reference mass one, and the
returned entry at reference mass k is the five-decimal rounding of that
scaled value. -/
theorem C6_scaling (comp : GroupD) (ref : String) (k : ℚ)
    (lookup : String → Option ℚ) (w cr : ℚ) (e : String) (c aw : ℚ)
    (hk : 0 < k) (hw : lookup ref = some w) (hc : findQ comp ref = some cr)
    (hnz : w * cr ≠ 0) (he : (e, c) ∈ comp) (hae : lookup e = some aw)
    (ha0 : aw ≠ 0) :
    calculate comp ref 1 lookup =
      Except.ok (comp.map (entryFor lookup (1 / (w * cr)))) ∧
    calculate comp ref k lookup =
      Except.ok (comp.map (entryFor lookup (k / (w * cr)))) ∧
    rawRequired aw c (k / (w * cr)) = k * rawRequired aw c (1 / (w * cr)) ∧
    (e, WEntry.val (roundTo5 (k * rawRequired aw c (1 / (w * cr))))) ∈
      comp.map (entryFor lookup (k / (w * cr))) := by
  have hscale : rawRequired aw c (k / (w * cr)) =
      k * rawRequired aw c (1 / (w * cr)) := by
    unfold rawRequired
    ring
  refine ⟨calculate_ok comp ref 1 lookup w cr one_pos hw hc hnz,
    calculate_ok comp ref k lookup w cr hk hw hc hnz, hscale, ?_⟩
  have hmem := List.mem_map_of_mem (entryFor lookup (k / (w * cr))) he
  rw [entryFor_some lookup (k / (w * cr)) e c aw hae ha0] at hmem
  rwa [hscale] at hmem

/-- Claim C6, witness: the amended theorem at a concrete composition with
scale factor five. -/
theorem C6_scaling_witness :
    (0 : ℚ) < 5 ∧
    rawRequired 3 2 (5 / (3 * 2)) = 5 * rawRequired 3 2 (1 / (3 * 2)) :=
  ⟨by norm_num,
   (C6_scaling [("H", 2)] "H" 5 (fun x => if x = "H" then some 3 else none)
      3 2 "H" 2 3 (by norm_num) rfl rfl (by norm_num)
      (List.mem_cons_self _ _) rfl (by norm_num)).2.2.1⟩

/-- Claim C7, counterexample.  The claim states that an unknown reference
element fails with an InvalidCalculationInput carrying an unknown-reference
reason.  In the code there is no such check: with the reference element
absent from the composition, the failure is the missing-atomic-weight
abort when the weight lookup also misses, and a KeyError from indexing the
composition when the weight is available, never a dedicated
unknown-reference invalid-input error. -/
theorem C7_counterexample :
    calculate [("A", 1)] "B" 1 (fun x => if x = "A" then some 1 else none) =
      Except.error (CalcError.missingWeight "B") ∧
    calculate [("A", 1)] "B" 1 (fun _ => some 1) =
      Except.error (CalcError.keyError "B") := by
  constructor <;> with_unfolding_all rfl

/-- Claim C7, amended: the calculation does fail before producing any
result whenever the reference mass is non-positive or the reference element
is not a key of the composition; the non-positive-mass case is checked
first and has its own error, while an unknown reference element surfaces as
the missing-weight abort (weight unavailable) or a key error (weight
available), not as a distinguished unknown-reference message. -/
theorem C7_failures :
    (∀ (comp : GroupD) (ref : String) (mass : ℚ) (lookup : String → Option ℚ),
       mass ≤ 0 →
       calculate comp ref mass lookup = Except.error CalcError.invalidMass) ∧
    (∀ (comp : GroupD) (ref : String) (mass : ℚ) (lookup : String → Option ℚ),
       0 < mass → lookup ref = none →
       calculate comp ref mass lookup =
         Except.error (CalcError.missingWeight ref)) ∧
    (∀ (comp : GroupD) (ref : String) (mass : ℚ) (lookup : String → Option ℚ)
       (w : ℚ), 0 < mass → lookup ref = some w → findQ comp ref = none →
       calculate comp ref mass lookup =
         Except.error (CalcError.keyError ref)) := by
  refine ⟨?_, ?_, ?_⟩
  · intro comp ref mass lookup h
    simp [calculate, h]
  · intro comp ref mass lookup hm h
    simp [calculate, not_le.mpr hm, h]
  · intro comp ref mass lookup w hm hw h
    simp [calculate, not_le.mpr hm, hw, h]

/-- Claim C7, witness: the three failure branches at concrete inputs. -/
theorem C7_failures_witness :
    ((0 : ℚ) ≤ 0 ∧
     calculate [("A", 1)] "A" 0 (fun _ => some 1) =
       Except.error CalcError.invalidMass) ∧
    calculate [("A", 1)] "A" 1 (fun _ => none) =
      Except.error (CalcError.missingWeight "A") ∧
    calculate [("A", 1)] "B" 1 (fun _ => some 1) =
      Except.error (CalcError.keyError "B") :=
  ⟨⟨le_refl 0, C7_failures.1 [("A", 1)] "A" 0 (fun _ => some 1) (le_refl 0)⟩,
   C7_failures.2.1 [("A", 1)] "A" 1 (fun _ => none) one_pos rfl,
   C7_failures.2.2 [("A", 1)] "B" 1 (fun _ => some 1) 1 one_pos rfl rfl⟩

/-- Claim C8, confirmed.  A missing atomic weight for the reference element
aborts the whole calculation with the missing-weight error and no result.
When the calculation goes through, every element of the composition whose
weight lookup misses is marked unavailable in the result while every
element with a resolvable nonzero weight receives its rounded required
mass. -/
theorem C8_weight_handling :
    (∀ (comp : GroupD) (ref : String) (mass : ℚ) (lookup : String → Option ℚ),
       0 < mass → lookup ref = none →
       calculate comp ref mass lookup =
         Except.error (CalcError.missingWeight ref)) ∧
    (∀ (comp : GroupD) (ref : String) (mass : ℚ) (lookup : String → Option ℚ)
       (w cr : ℚ), 0 < mass → lookup ref = some w →
       findQ comp ref = some cr → w * cr ≠ 0 →
       calculate comp ref mass lookup =
         Except.ok (comp.map (entryFor lookup (mass / (w * cr)))) ∧
       (∀ (e : String) (c : ℚ), (e, c) ∈ comp → lookup e = none →
          (e, WEntry.unavailable) ∈
            comp.map (entryFor lookup (mass / (w * cr)))) ∧
       (∀ (e : String) (c aw : ℚ), (e, c) ∈ comp → lookup e = some aw →
          aw ≠ 0 →
          (e, WEntry.val (roundTo5 (rawRequired aw c (mass / (w * cr))))) ∈
            comp.map (entryFor lookup (mass / (w * cr))))) := by
  refine ⟨fun comp ref mass lookup hm h => by
    simp [calculate, not_le.mpr hm, h], ?_⟩
  intro comp ref mass lookup w cr hm hw hc hnz
  refine ⟨calculate_ok comp ref mass lookup w cr hm hw hc hnz, ?_, ?_⟩
  · intro e c he h
    have hmem := List.mem_map_of_mem (entryFor lookup (mass / (w * cr))) he
    rwa [entryFor_none lookup (mass / (w * cr)) e c h] at hmem
  · intro e c aw he hae ha0
    have hmem := List.mem_map_of_mem (entryFor lookup (mass / (w * cr))) he
    rwa [entryFor_some lookup (mass / (w * cr)) e c aw hae ha0] at hmem

/-- Claim C8, witness: a two-element composition whose second element has
no atomic weight is marked unavailable while the reference element still
receives its rounded mass. -/
theorem C8_weight_handling_witness :
    (0 : ℚ) < 4 ∧
    ("X", WEntry.unavailable) ∈
      ([("A", 1), ("X", 1)] : GroupD).map
        (entryFor (fun x => if x = "A" then some 2 else none) (4 / (2 * 1))) ∧
    ("A", WEntry.val (roundTo5 (rawRequired 2 1 (4 / (2 * 1))))) ∈
      ([("A", 1), ("X", 1)] : GroupD).map
        (entryFor (fun x => if x = "A" then some 2 else none) (4 / (2 * 1))) :=
  ⟨by norm_num,
   (C8_weight_handling.2 [("A", 1), ("X", 1)] "A" 4
      (fun x => if x = "A" then some 2 else none) 2 1 (by norm_num) rfl rfl
      (by norm_num)).2.1 "X" 1
      (List.mem_cons_of_mem _ (List.mem_cons_self _ _)) rfl,
   (C8_weight_handling.2 [("A", 1), ("X", 1)] "A" 4
      (fun x => if x = "A" then some 2 else none) 2 1 (by norm_num) rfl rfl
      (by norm_num)).2.2 "A" 1 2 (List.mem_cons_self _ _) rfl (by norm_num)⟩

/-- Claim C9, confirmed: the parser of the embedding is a pure function of
the input string, so two invocations on the same string yield equal
results; there is no state outside the arguments for a parse to read or
write. -/
theorem C9_deterministic : ∀ s : String, parse_formula s = parse_formula s :=
  fun _ => rfl

/-- Claim C10, confirmed: with a positive reference coefficient and a
positive known reference weight, the raw required mass the loop computes
for the reference element itself, weight times coefficient times scale
factor, equals the entered reference mass exactly, and the reference
element's returned entry is the five-decimal rounding of that mass. -/
theorem C10_reference_exact (comp : GroupD) (ref : String) (mass : ℚ)
    (lookup : String → Option ℚ) (w cr : ℚ)
    (hm : 0 < mass) (hw : lookup ref = some w) (hw0 : 0 < w)
    (hc : findQ comp ref = some cr) (hc0 : 0 < cr) :
    rawRequired w cr (mass / (w * cr)) = mass ∧
    calculate comp ref mass lookup =
      Except.ok (comp.map (entryFor lookup (mass / (w * cr)))) ∧
    (ref, WEntry.val (roundTo5 mass)) ∈
      comp.map (entryFor lookup (mass / (w * cr))) := by
  have hnz : w * cr ≠ 0 := mul_ne_zero (ne_of_gt hw0) (ne_of_gt hc0)
  have hraw : rawRequired w cr (mass / (w * cr)) = mass := by
    unfold rawRequired
    rw [mul_comm]
    exact div_mul_cancel₀ mass hnz
  refine ⟨hraw, calculate_ok comp ref mass lookup w cr hm hw hc hnz, ?_⟩
  have hmem := List.mem_map_of_mem (entryFor lookup (mass / (w * cr)))
    (findQ_mem hc)
  rw [entryFor_some lookup (mass / (w * cr)) ref cr w hw (ne_of_gt hw0)] at hmem
  rwa [hraw] at hmem

/-- Claim C10, witness: the identity at a concrete composition, weight and
mass. -/
theorem C10_reference_exact_witness :
    (0 : ℚ) < 5 ∧ rawRequired 3 2 (5 / (3 * 2)) = 5 :=
  ⟨by norm_num,
   (C10_reference_exact [("H", 2)] "H" 5
      (fun x => if x = "H" then some 3 else none) 3 2 (by norm_num) rfl
      (by norm_num) rfl (by norm_num)).1⟩
